import Mathlib

/-!
Shallow embedding of `promkv` (a key-value store backed by Prometheus),
from `promkv.go`, together with theorems checking the specification's
claims about it.

Modelling conventions:

* `time.Time` values are modelled as `Int` nanoseconds since the Unix
  epoch (Go's `time.Time` has nanosecond resolution; `Add` of a
  `time.Duration` is addition of nanoseconds).
* Prometheus sample timestamps (`prompb.Sample.Timestamp`, produced by
  `timestamp.FromTime`) are `Int` milliseconds since the epoch.
* Sample values are `float64` in the source.  Every value this program
  ever writes is an integer - a byte (0..255), a buffer length, or a
  millisecond timestamp - and such integers are represented exactly by
  `float64` up to `2^53`, so values are modelled as `Int`.
* Fallible Go code (`io.ReadAll`, HTTP calls, panics, out-of-range
  indexing/slicing) is modelled with `Except`/`Option`.
-/

namespace Promkv

/-- `prompb.Label`: a name/value pair attached to a series. -/
structure Label where
  name : String
  value : String
deriving Repr, DecidableEq

/-- `prompb.Sample`: a (value, timestamp) point.  `value` is the sample's
`float64` value (always integral in this program, see module docstring);
`timestamp` is milliseconds since the Unix epoch. -/
structure Sample where
  value : Int
  timestamp : Int
deriving Repr, DecidableEq

/-- `prompb.TimeSeries`: a label set plus an ordered sample list. -/
structure TimeSeries where
  labels : List Label
  samples : List Sample
deriving Repr, DecidableEq

/-- `prompb.MetricMetadata_GAUGE` is the only metric type this program uses. -/
inductive MetricType where
  | gauge
deriving Repr, DecidableEq

/-- `prompb.MetricMetadata` (the fields `buildWriteRequest` sets). -/
structure MetricMetadata where
  type : MetricType
  metricFamilyName : String
  help : String
  unit : String
deriving Repr, DecidableEq

/-- `prompb.WriteRequest` (the fields `buildWriteRequest` sets). -/
structure WriteRequest where
  metadata : List MetricMetadata
  timeseries : List TimeSeries
deriving Repr, DecidableEq

/-- One second as a `time.Duration` in nanoseconds (`time.Second`). -/
def second : Int := 1000000000

/-- `timestamp.FromTime t = t.Unix()*1000 + t.Nanosecond()/int64(time.Millisecond)`.
For a time whose total nanosecond count is `t` (with `Unix()` the floor of
`t / 10^9` and `Nanosecond()` the nonnegative remainder), this equals the
floor of `t / 10^6`: milliseconds since the epoch.  `Int./` is Euclidean
division, which is floor division for the positive divisor used here. -/
def fromTime (t : Int) : Int := t / 1000000

/-- `timestamp.Time ms = time.Unix(ms/1000, (ms%1000)*int64(time.Millisecond))`:
the instant `ms * 10^6` nanoseconds after the epoch (Go truncated
division and remainder satisfy `ms = 1000*(ms/1000) + ms%1000`, and
`time.Unix` normalises its two arguments into a single instant). -/
def toTime (ms : Int) : Int := ms * 1000000

/-- The `Metadata` list built at the top of `buildWriteRequest`. -/
def metadataList : List MetricMetadata :=
  [ { type := MetricType.gauge
      metricFamilyName := "promkv_file_timestamp_seconds"
      help := "Last timestamp when file was written."
      unit := "seconds" },
    { type := MetricType.gauge
      metricFamilyName := "promkv_file_size_bytes"
      help := "Size of file."
      unit := "bytes" },
    { type := MetricType.gauge
      metricFamilyName := "promkv_file_content"
      help := "Content of file."
      unit := "" } ]

/-- `buildWriteRequest(name, r)` from `promkv.go`.

The reader `r` is represented by the result of `io.ReadAll(r)`: either an
error or the byte buffer `bb` (Go `byte` is `Fin 256`).  The current
instant `time.Now().UTC()` is the extra parameter `now` (nanoseconds since
the epoch); the Go code reads the clock at exactly one point.

On a read error the Go function returns `(nil, err)`; here `Except.error err`.
Otherwise it computes `dataOffset = time.Second * len(bb)` and
`startTimestamp = now - dataOffset`, then appends three series: the
timestamp series (one sample, value and timestamp both
`timestamp.FromTime(startTimestamp)`), the size series (one sample, value
`len(bb)`, timestamp `timestamp.FromTime(startTimestamp)`), and the content
series (`for i, b := range bb`, value `b`, timestamp
`timestamp.FromTime(startTimestamp.Add(time.Second * i))`). -/
def buildWriteRequest (name : String) (readResult : Except String (List (Fin 256)))
    (now : Int) : Except String WriteRequest :=
  match readResult with
  | Except.error err => Except.error err
  | Except.ok bb =>
    let dataOffset : Int := second * bb.length
    let startTimestamp : Int := now - dataOffset
    Except.ok
      { metadata := metadataList
        timeseries :=
          [ { labels := [⟨"__name__", "promkv_file_timestamp_seconds"⟩, ⟨"key", name⟩]
              samples := [⟨fromTime startTimestamp, fromTime startTimestamp⟩] },
            { labels := [⟨"__name__", "promkv_file_size_bytes"⟩, ⟨"key", name⟩]
              samples := [⟨(bb.length : Int), fromTime startTimestamp⟩] },
            { labels := [⟨"__name__", "promkv_file_content"⟩, ⟨"key", name⟩]
              samples := bb.enum.map fun p =>
                ⟨(p.2.val : Int), fromTime (startTimestamp + second * p.1)⟩ } ] }

/-- `model.Matrix`: what a range query returns - a list of sample streams,
each an ordered sample list.  (`KV.Get` only ever sees this variant of
`model.Value`; `getValues`/`getLastValue` panic on any other, which the
model restricts away by type.) -/
abbrev Matrix := List (List Sample)

/-- `getValues(val)`: `samples := val[len(val)-1].Values` followed by
collecting `float64(sample.Value)` for each sample.  Indexing `val[-1]`
on an empty matrix panics, modelled as `none`. -/
def getValues (val : Matrix) : Option (List Int) :=
  match val.getLast? with
  | none => none
  | some samples => some (samples.map Sample.value)

/-- `getLastValue(val)`: `samples := val[len(val)-1].Values` then
`samples[len(samples)-1].Value`.  Either indexing panics on an empty
list, modelled as `none`. -/
def getLastValue (val : Matrix) : Option Int :=
  match val.getLast? with
  | none => none
  | some samples =>
    match samples.getLast? with
    | none => none
    | some s => some s.value

/-- The Go slice expression `xs[:k]` (with `k = int(fileSizeBytes)` in
`KV.Get`).  It is well defined exactly when `0 ≤ k ≤ len(xs)`: for
`k < 0` or `k > cap(xs)` it panics, and for `len(xs) < k ≤ cap(xs)` it
exposes unspecified garbage beyond the data; both are modelled as `none`. -/
def sliceTo (xs : List Int) (k : Int) : Option (List Int) :=
  if 0 ≤ k ∧ k ≤ (xs.length : Int) then some (xs.take k.toNat) else none

/-- The Go conversion `byte(fb)` applied to an integral `float64`:
truncation to an integer (the identity here) followed by reduction to the
low 8 bits.  `Int.emod` with modulus 256 yields exactly the `uint8` range. -/
def byteOf (v : Int) : Fin 256 := ⟨(v % 256).toNat, by omega⟩

/-- A query range, as in `promapi.Range`: start and end instants
(nanoseconds, see module docstring) and a step. -/
structure QueryWindow where
  start : Int
  stop : Int
  step : Int
deriving Repr, DecidableEq

/-- Lines 98-104 of `KV.Get`: from the content-series query result `val`,
`floatBytes := getValues(val)[:int(fileSizeBytes)]`, then each element is
converted with `byte(fb)` and appended to the output buffer. -/
def decodeContent (val : Matrix) (fileSizeBytes : Int) : Option (List (Fin 256)) := do
  let vals ← getValues val
  let floatBytes ← sliceTo vals fileSizeBytes
  some (floatBytes.map byteOf)

/-- `KV.Get` from `promkv.go`, parameterised by the backend's responses.

`sizeRes` and `startRes` are the matrices returned by the two fixed-window
(`now-1h .. now`, step `1m`) range queries for `promkv_file_size_bytes{key}`
and `promkv_file_timestamp_seconds{key}`; `contentQuery` maps the
`dataRange` that `Get` computes to the matrix returned by the
`promkv_file_content{key}` query.  The code then takes
`fileSizeBytes := getLastValue(sizeRes)`,
`timestampSeconds := getLastValue(startRes)`, builds
`dataRange = [timestamp.Time(int64(timestampSeconds)),
timestamp.Time(int64(timestampSeconds)) + fileSizeBytes seconds]` at step
`time.Second`, queries the content series over it, and decodes
(`decodeContent`).  `float64` to `int64` conversions truncate; on the
integral values involved they are the identity. -/
def Get (sizeRes startRes : Matrix) (contentQuery : QueryWindow → Matrix) :
    Option (List (Fin 256)) := do
  let fileSizeBytes ← getLastValue sizeRes
  let timestampSeconds ← getLastValue startRes
  let dataRange : QueryWindow :=
    ⟨toTime timestampSeconds, toTime timestampSeconds + second * fileSizeBytes, second⟩
  decodeContent (contentQuery dataRange) fileSizeBytes

/-- Whether a stored sample's instant falls inside a queried window.
(Sample timestamps are milliseconds and the window bounds nanoseconds;
`toTime` puts them on the same axis.) -/
def inWindow (w : QueryWindow) (s : Sample) : Bool :=
  decide (w.start ≤ toTime s.timestamp) && decide (toTime s.timestamp ≤ w.stop)

/-- A backend holding one stored series: a range query returns the stored
samples whose instants fall inside the queried window, in stored order, as
a single-stream matrix when any exist - and an empty result set (no
streams at all) when none do, which is what a sample-storing backend
reports for a series with no points in the queried range. -/
def queryStored (stored : List Sample) (w : QueryWindow) : Matrix :=
  if (stored.filter (inWindow w)).isEmpty then [] else [stored.filter (inWindow w)]

/-- The `WriteRequest` built for key `name`, buffer `bb`, instant `now`
(the `Except.ok` payload of `buildWriteRequest`; projection helper). -/
def reqOf (name : String) (bb : List (Fin 256)) (now : Int) : WriteRequest :=
  (buildWriteRequest name (Except.ok bb) now).toOption.getD ⟨[], []⟩

/-- The series at position `i` of the built request (0 = timestamp/start
series, 1 = size series, 2 = content series; projection helper). -/
def seriesAt (name : String) (bb : List (Fin 256)) (now : Int) (i : Nat) : TimeSeries :=
  (reqOf name bb now).timeseries.getD i ⟨[], []⟩

/-- `HttpResponse`: the parts of Go's `http.Response` that `KV.Set` reads.
`status` is the textual `resp.Status` (e.g. "500 Internal Server Error"),
`statusCode` the numeric code, `body` the response body. -/
structure HttpResponse where
  statusCode : Nat
  status : String
  body : String
deriving Repr, DecidableEq

/-- The first line of a body, as produced by one `bufio.Scanner.Scan` /
`Text()` step with the default line splitter: everything before the first
newline, and "" for an empty body (where `Scan` returns false and `line`
keeps its zero value).  (Carriage-return stripping is elided; no claim
involves it.) -/
def firstLine (s : String) : String := (s.splitOn "\n").headD ""

/-- Lines 162-180 of `KV.Set`: the handling of the ingestion endpoint's
answer.  The argument is the result of `cli.Do(httpReq)`: a network-level
error or a response.  A network error is returned unchanged.  Otherwise,
if `resp.StatusCode/100 != 2`, `Set` returns
`fmt.Errorf("server returned HTTP status %s: %s", resp.Status, line)`
with `line` the first body line; on a 2xx code it returns `nil`
(here `none` = success, `some e` = the error `e`). -/
def setHandleResponse (doResult : Except String HttpResponse) : Option String :=
  match doResult with
  | Except.error e => some e
  | Except.ok resp =>
    if resp.statusCode / 100 ≠ 2 then
      some ("server returned HTTP status " ++ resp.status ++ ": " ++ firstLine resp.body)
    else
      none

/-- Modelled from the spec: an instant (given, as in this model, in
nanoseconds since the epoch) "expressed in seconds since the epoch".
Used only to compare the spec's wording for the start-series value with
what the code stores. -/
def secondsSinceEpoch (t : Int) : Int := t / 1000000000

/-! ### Helper lemmas -/

/-- Advancing an instant by `i` whole seconds advances its millisecond
timestamp by exactly `1000 * i`, for any integer `i` - the floor in
`fromTime` commutes with shifts by whole multiples of a millisecond. -/
theorem fromTime_add_mul_second (t i : Int) :
    fromTime (t + second * i) = fromTime t + 1000 * i := by
  unfold fromTime second
  have h : t + (1000000000 : Int) * i = t + 1000 * i * 1000000 := by ring
  rw [h, Int.add_mul_ediv_right _ _ (by norm_num : (1000000 : Int) ≠ 0)]

/-- Decoding the encoded value of a byte gives the byte back. -/
theorem byteOf_val (b : Fin 256) : byteOf ((b.val : Int)) = b := by
  apply Fin.ext
  have hb := b.isLt
  show (((b.val : Int)) % 256).toNat = b.val
  omega

/-- `byteOf` undoes the byte-to-value embedding on a whole list. -/
theorem map_byteOf_val (B : List (Fin 256)) :
    (B.map fun b => ((b.val : Int))).map byteOf = B := by
  rw [List.map_map]
  have h : ∀ b ∈ B, (byteOf ∘ fun b : Fin 256 => ((b.val : Int))) b = id b := by
    intro b _
    exact byteOf_val b
  rw [List.map_congr_left h, List.map_id]

/-- The content series built for buffer `B` anchored at `start`
(nanoseconds): what `buildWriteRequest` stores for `promkv_file_content`. -/
def contentSamples (B : List (Fin 256)) (start : Int) : List Sample :=
  B.enum.map fun p => ⟨(p.2.val : Int), fromTime (start + second * p.1)⟩

/-- The content series of the built request is `contentSamples` at
`startTimestamp = now - len(B) seconds`. -/
theorem seriesAt_two (name : String) (B : List (Fin 256)) (now : Int) :
    (seriesAt name B now 2).samples = contentSamples B (now - second * B.length) := rfl

/-- The start series of the built request holds one sample whose value and
timestamp are both `fromTime startTimestamp`. -/
theorem seriesAt_zero (name : String) (B : List (Fin 256)) (now : Int) :
    (seriesAt name B now 0).samples =
      [⟨fromTime (now - second * B.length), fromTime (now - second * B.length)⟩] := rfl

/-- The size series of the built request holds one sample with value
`len(B)` and timestamp `fromTime startTimestamp`. -/
theorem seriesAt_one (name : String) (B : List (Fin 256)) (now : Int) :
    (seriesAt name B now 1).samples =
      [⟨(B.length : Int), fromTime (now - second * B.length)⟩] := rfl

/-- Element `i` of the content series: value `B[i]`, timestamp
`fromTime (start + i seconds)`. -/
theorem contentSamples_getD (B : List (Fin 256)) (start : Int) (i : Nat)
    (hi : i < B.length) :
    (contentSamples B start).getD i ⟨0, 0⟩ =
      ⟨(B[i].val : Int), fromTime (start + second * i)⟩ := by
  unfold contentSamples
  rw [List.getD_eq_getElem?_getD, List.getElem?_map, List.getElem?_enum,
    List.getElem?_eq_getElem hi]
  rfl

/-- A range query over the stored content series of a nonempty buffer,
with the window `Get` derives (from the millisecond-rounded anchor,
extending `len(B)` seconds), returns every content sample: each sample `i`
sits `i` seconds past the anchor, `0 ≤ i < len(B)`, hence inside the
window, and for nonempty `B` the stream is nonempty. -/
theorem queryStored_content (B : List (Fin 256)) (start : Int) (hB : B ≠ []) :
    queryStored (contentSamples B start)
      ⟨toTime (fromTime start), toTime (fromTime start) + second * B.length, second⟩ =
      [contentSamples B start] := by
  have hfilter : (contentSamples B start).filter
      (inWindow ⟨toTime (fromTime start), toTime (fromTime start) + second * B.length, second⟩) =
      contentSamples B start := by
    apply List.filter_eq_self.mpr
    intro a ha
    obtain ⟨p, hp, rfl⟩ := List.mem_map.mp ha
    have hmem := List.mem_enum_iff_getElem?.mp hp
    have hlt : p.1 < B.length := (List.getElem?_eq_some.mp hmem).1
    have ht : fromTime (start + second * (p.1 : Int)) = fromTime start + 1000 * p.1 :=
      fromTime_add_mul_second start p.1
    unfold inWindow
    simp only [Bool.and_eq_true, decide_eq_true_eq]
    rw [ht]
    unfold toTime second
    omega
  have hne : ¬ ((contentSamples B start).isEmpty = true) := by
    intro h
    apply hB
    have hnil := List.isEmpty_iff.mp h
    have hlen2 : (contentSamples B start).length = B.length := by
      unfold contentSamples
      rw [List.length_map, List.enum_length]
    have hzero : B.length = 0 := by
      rw [← hlen2, hnil]
      rfl
    exact List.eq_nil_of_length_eq_zero hzero
  unfold queryStored
  rw [hfilter, if_neg hne]

/-- Extracting the sample values of the content series gives back the byte
values of `B`, in order. -/
theorem contentSamples_values (B : List (Fin 256)) (start : Int) :
    (contentSamples B start).map Sample.value = B.map fun b => ((b.val : Int)) := by
  unfold contentSamples
  rw [List.map_map]
  have h : (Sample.value ∘ fun p : Nat × Fin 256 =>
      (⟨(p.2.val : Int), fromTime (start + second * p.1)⟩ : Sample)) =
      (fun b : Fin 256 => ((b.val : Int))) ∘ Prod.snd := rfl
  rw [h, ← List.map_map, List.enum_map_snd]

/-- `getValues` on a single-stream matrix extracts that stream's values. -/
theorem getValues_single (s : List Sample) :
    getValues [s] = some (s.map Sample.value) := rfl

/-- A `Get` whose first two queries produced `n` and `m0` reduces to
decoding the content query over the window `[m0, m0 + n seconds]`. -/
theorem Get_eq (sizeRes startRes : Matrix) (cq : QueryWindow → Matrix) (n m0 : Int)
    (hs : getLastValue sizeRes = some n) (ht : getLastValue startRes = some m0) :
    Get sizeRes startRes cq =
      decodeContent (cq ⟨toTime m0, toTime m0 + second * n, second⟩) n := by
  unfold Get
  rw [hs, ht]
  rfl

/-- Decoding the stored content series of a nonempty buffer over the
window that `Get` derives from the stored size and start values
reconstructs the original buffer. -/
theorem decodeContent_roundtrip (B : List (Fin 256)) (start : Int) (hB : B ≠ []) :
    decodeContent
      (queryStored (contentSamples B start)
        ⟨toTime (fromTime start), toTime (fromTime start) + second * B.length, second⟩)
      (B.length : Int) = some B := by
  rw [queryStored_content B start hB]
  unfold decodeContent
  rw [getValues_single, contentSamples_values]
  show (sliceTo (B.map fun b => ((b.val : Int))) (B.length : Int)).bind
      (fun floatBytes => some (floatBytes.map byteOf)) = some B
  have hslice : sliceTo (B.map fun b => ((b.val : Int))) (B.length : Int) =
      some (B.map fun b => ((b.val : Int))) := by
    unfold sliceTo
    rw [if_pos]
    · have hnat : ((B.length : Int)).toNat = B.length := by omega
      rw [hnat, ← List.length_map B fun b => ((b.val : Int)), List.take_length]
    · constructor
      · exact Int.natCast_nonneg B.length
      · rw [List.length_map]
  rw [hslice]
  show some ((B.map fun b => ((b.val : Int))).map byteOf) = some B
  rw [map_byteOf_val]

/-! ### The claims -/

/-- Claim C1 counterexample.  The claim covers the empty buffer, but for
it the round trip does not return the buffer: an empty write stores zero
content samples, the backend's content query therefore returns an empty
result set (no streams), and `getValues` indexes `val[len(val)-1]` on
that empty matrix (promkv.go line 110) - a panic, modelled `none` - so
`Get` does not return `some []`.  The size and start queries still
succeed (those series each hold one sample), so the decode fails at
exactly the content step. -/
theorem round_trip_empty_fails :
    (buildWriteRequest "k" (Except.ok ([] : List (Fin 256))) 2000000000).map (fun req =>
      Get [(req.timeseries.getD 1 ⟨[], []⟩).samples]
        [(req.timeseries.getD 0 ⟨[], []⟩).samples]
        (queryStored (req.timeseries.getD 2 ⟨[], []⟩).samples)) = Except.ok none ∧
    (buildWriteRequest "k" (Except.ok ([] : List (Fin 256))) 2000000000).map (fun req =>
      Get [(req.timeseries.getD 1 ⟨[], []⟩).samples]
        [(req.timeseries.getD 0 ⟨[], []⟩).samples]
        (queryStored (req.timeseries.getD 2 ⟨[], []⟩).samples)) ≠
      Except.ok (some ([] : List (Fin 256))) := by
  refine ⟨rfl, ?_⟩
  intro h
  have h2 : (Except.ok (none : Option (List (Fin 256))) : Except String _) =
      Except.ok (some ([] : List (Fin 256))) := h
  exact Option.noConfusion (Except.ok.inj h2)

/-- Claim C1 as amended.  Round-trip law for nonempty buffers: for every
key, every nonempty byte buffer `B` and every write instant, if the write
request that `Set` builds succeeds and reaches a backend that stores its
samples, and the decoder's first two query windows contain the write (so
those queries return the stored size and start series), then `Get`
returns exactly `B`: the size query (series index 1 of the request) yields
`len(B)`, the start query (index 0) yields the anchor in milliseconds,
the content window derived from them contains every content sample, and
decoding reproduces each byte.  For the empty buffer the decode instead
panics on the empty content result (`round_trip_empty_fails`). -/
theorem round_trip (name : String) (B : List (Fin 256)) (now : Int) (hB : B ≠ []) :
    (buildWriteRequest name (Except.ok B) now).map (fun req =>
      Get [(req.timeseries.getD 1 ⟨[], []⟩).samples]
        [(req.timeseries.getD 0 ⟨[], []⟩).samples]
        (queryStored (req.timeseries.getD 2 ⟨[], []⟩).samples)) =
      Except.ok (some B) := by
  show Except.ok
      (Get [(seriesAt name B now 1).samples] [(seriesAt name B now 0).samples]
        (queryStored (seriesAt name B now 2).samples)) = Except.ok (some B)
  rw [seriesAt_zero, seriesAt_one, seriesAt_two]
  have h := Get_eq
    [[⟨(B.length : Int), fromTime (now - second * B.length)⟩]]
    [[⟨fromTime (now - second * B.length), fromTime (now - second * B.length)⟩]]
    (queryStored (contentSamples B (now - second * B.length)))
    (B.length : Int) (fromTime (now - second * B.length)) rfl rfl
  rw [h, decodeContent_roundtrip B (now - second * B.length) hB]

/-- Claim C1 (amended) witness: writing "hi" = [104, 105] under key
"greeting" at instant 2·10^9 ns and reading it back through the stored
series returns exactly [104, 105]. -/
theorem round_trip_witness :
    ([104, 105] : List (Fin 256)) ≠ [] ∧
    (buildWriteRequest "greeting" (Except.ok ([104, 105] : List (Fin 256))) 2000000000).map
      (fun req =>
        Get [(req.timeseries.getD 1 ⟨[], []⟩).samples]
          [(req.timeseries.getD 0 ⟨[], []⟩).samples]
          (queryStored (req.timeseries.getD 2 ⟨[], []⟩).samples)) =
      Except.ok (some ([104, 105] : List (Fin 256))) :=
  ⟨by decide, round_trip "greeting" [104, 105] 2000000000 (by decide)⟩

/-- Claim C2 (confirmed).  Content sample `i` of the built write request
has value equal to the unsigned value of byte `B[i]` (hence in `[0, 255]`),
its timestamp is content sample 0's timestamp plus `i` seconds (1000·i
milliseconds), and content sample 0's timestamp equals the instant encoded
in the start-series value. -/
theorem content_sample_spec (name : String) (B : List (Fin 256)) (now : Int)
    (i : Nat) (hi : i < B.length) :
    ((seriesAt name B now 2).samples.getD i ⟨0, 0⟩).value = (B[i].val : Int) ∧
    (0 ≤ ((seriesAt name B now 2).samples.getD i ⟨0, 0⟩).value ∧
      ((seriesAt name B now 2).samples.getD i ⟨0, 0⟩).value ≤ 255) ∧
    ((seriesAt name B now 2).samples.getD i ⟨0, 0⟩).timestamp =
      ((seriesAt name B now 2).samples.getD 0 ⟨0, 0⟩).timestamp + 1000 * i ∧
    ((seriesAt name B now 2).samples.getD 0 ⟨0, 0⟩).timestamp =
      ((seriesAt name B now 0).samples.getD 0 ⟨0, 0⟩).value := by
  have h0 : (0 : Nat) < B.length := Nat.lt_of_le_of_lt (Nat.zero_le i) hi
  rw [seriesAt_two, seriesAt_zero, contentSamples_getD B _ i hi,
    contentSamples_getD B _ 0 h0]
  have hb := B[i].isLt
  refine ⟨rfl, ⟨?_, ?_⟩, ?_, ?_⟩
  · show (0 : Int) ≤ (B[i].val : Int)
    omega
  · show ((B[i].val : Int)) ≤ 255
    omega
  · show fromTime (now - second * B.length + second * i) =
      fromTime (now - second * B.length + second * (0 : Nat)) + 1000 * i
    rw [fromTime_add_mul_second, fromTime_add_mul_second]
    push_cast
    ring
  · show fromTime (now - second * B.length + second * (0 : Nat)) =
      fromTime (now - second * B.length)
    norm_num

/-- Claim C2 witness: for key "greeting", buffer "hi" = [104, 105] written
at instant 2·10^9 ns, sample 1 of the content series has value 105 and sits
1000 ms after sample 0, which is anchored at the start-series value. -/
theorem content_sample_spec_witness :
    (1 < ([104, 105] : List (Fin 256)).length) ∧
    (((seriesAt "greeting" [104, 105] 2000000000 2).samples.getD 1 ⟨0, 0⟩).value = 105 ∧
      ((seriesAt "greeting" [104, 105] 2000000000 2).samples.getD 1 ⟨0, 0⟩).timestamp =
        ((seriesAt "greeting" [104, 105] 2000000000 2).samples.getD 0 ⟨0, 0⟩).timestamp + 1000 ∧
      ((seriesAt "greeting" [104, 105] 2000000000 2).samples.getD 0 ⟨0, 0⟩).timestamp =
        ((seriesAt "greeting" [104, 105] 2000000000 0).samples.getD 0 ⟨0, 0⟩).value) := by
  have h := content_sample_spec "greeting" [104, 105] 2000000000 1 (by decide)
  refine ⟨by decide, h.1, ?_, h.2.2.2⟩
  have h2 := h.2.2.1
  simpa using h2

/-- Claim C3 (confirmed).  The built write request has exactly one sample
in the size series (value `len(B)`), exactly one in the start series, and
exactly `len(B)` samples in the content series. -/
theorem sample_counts (name : String) (B : List (Fin 256)) (now : Int) :
    ∃ req, buildWriteRequest name (Except.ok B) now = Except.ok req ∧
      (req.timeseries.getD 1 ⟨[], []⟩).samples.length = 1 ∧
      ((req.timeseries.getD 1 ⟨[], []⟩).samples.getD 0 ⟨0, 0⟩).value = (B.length : Int) ∧
      (req.timeseries.getD 0 ⟨[], []⟩).samples.length = 1 ∧
      (req.timeseries.getD 2 ⟨[], []⟩).samples.length = B.length := by
  refine ⟨_, rfl, rfl, rfl, rfl, ?_⟩
  show (contentSamples B (now - second * B.length)).length = B.length
  unfold contentSamples
  rw [List.length_map, List.enum_length]

/-- Claim C4 counterexample.  For key "k", the 1-byte buffer [0] and
write instant 10^9 ns (= 1 s after the epoch), the size-series and
start-series samples carry timestamp 0 ms, not `fromTime now` = 1000 ms:
the code stamps them with `startTimestamp = now - len(B) seconds`, not
with `now`. -/
theorem size_start_timestamp_not_now :
    ¬ (((seriesAt "k" [0] 1000000000 1).samples.getD 0 ⟨0, 0⟩).timestamp =
        fromTime 1000000000 ∧
      ((seriesAt "k" [0] 1000000000 0).samples.getD 0 ⟨0, 0⟩).timestamp =
        fromTime 1000000000) := by decide

/-- Claim C4 as amended.  The single size-series sample and the single
start-series sample both carry timestamp `fromTime startTimestamp` where
`startTimestamp = now - len(B) seconds` - i.e. they are backdated by the
full buffer length and equal "now" only for an empty buffer - while
content sample `i` is backdated by `len(B) - i` seconds from now. -/
theorem size_start_timestamps_backdated (name : String) (B : List (Fin 256)) (now : Int) :
    ((seriesAt name B now 1).samples.getD 0 ⟨0, 0⟩).timestamp =
      fromTime (now - second * B.length) ∧
    ((seriesAt name B now 0).samples.getD 0 ⟨0, 0⟩).timestamp =
      fromTime (now - second * B.length) ∧
    ∀ i : Nat, i < B.length →
      ((seriesAt name B now 2).samples.getD i ⟨0, 0⟩).timestamp =
        fromTime now - 1000 * ((B.length : Int) - i) := by
  refine ⟨rfl, rfl, ?_⟩
  intro i hi
  rw [seriesAt_two, contentSamples_getD B _ i hi]
  show fromTime (now - second * B.length + second * i) =
    fromTime now - 1000 * ((B.length : Int) - i)
  have h : now - second * B.length + second * (i : Int) =
      now + second * ((i : Int) - B.length) := by ring
  rw [h, fromTime_add_mul_second]
  ring

/-- Claim C4 (amended) witness: key "k", buffer [0], now = 10^9 ns; the
metadata samples carry timestamp 0 = fromTime(now - 1 s), and content
sample 0 is 1 s before now. -/
theorem size_start_timestamps_backdated_witness :
    ((seriesAt "k" [0] 1000000000 1).samples.getD 0 ⟨0, 0⟩).timestamp =
      fromTime (1000000000 - second * ([0] : List (Fin 256)).length) ∧
    ((seriesAt "k" [0] 1000000000 2).samples.getD 0 ⟨0, 0⟩).timestamp =
      fromTime 1000000000 - 1000 * ((([0] : List (Fin 256)).length : Int) - (0 : Nat)) := by
  have h := size_start_timestamps_backdated "k" [0] 1000000000
  exact ⟨h.1, h.2.2 0 (by decide)⟩

/-- Claim C5 counterexample.  For key "k", the empty buffer and write
instant 2·10^9 ns, byte 0 is anchored at `startTimestamp = now` = 2 s
since the epoch, but the start-series sample's value is 2000 - the code
stores `timestamp.FromTime(startTimestamp)`, milliseconds since the
epoch, not seconds. -/
theorem start_value_not_seconds :
    ((seriesAt "k" [] 2000000000 0).samples.getD 0 ⟨0, 0⟩).value ≠
      secondsSinceEpoch 2000000000 := by decide

/-- Claim C5 as amended.  The start-series sample's value equals the
wall-clock instant at which byte 0 of the write is anchored
(`startTimestamp = now - len(B) seconds`), expressed in milliseconds
since the epoch (the representation `timestamp.FromTime` produces and
`timestamp.Time` consumes on the read path). -/
theorem start_value_millis (name : String) (B : List (Fin 256)) (now : Int) :
    ((seriesAt name B now 0).samples.getD 0 ⟨0, 0⟩).value =
      fromTime (now - second * B.length) := rfl

/-- Claim C6 counterexample.  When the content query's last series holds
fewer samples than `fileSizeBytes` - here one sample against
`fileSizeBytes = 2` - the slice `getValues(val)[:int(fileSizeBytes)]` is
out of bounds (a Go panic), so the step is not well defined and no buffer
of length `fileSizeBytes` is returned. -/
theorem decodeContent_short_result :
    decodeContent [[⟨5, 0⟩]] 2 = none := by decide

/-- Claim C6 as amended.  Whenever the content query result has a last
series with at least `fileSizeBytes` samples (and `fileSizeBytes` is not
negative), the decode step is well defined: it truncates the last series'
ordered value list to exactly the first `fileSizeBytes` values - also when
the backend returns more points than expected - maps each value to a byte
by truncation to the `uint8` range, and returns a buffer of length exactly
`fileSizeBytes`.  With fewer samples than `fileSizeBytes` the slice is out
of bounds. -/
theorem decodeContent_truncates (val : Matrix) (s : List Sample) (k : Int)
    (hlast : val.getLast? = some s) (h0 : 0 ≤ k) (hk : k ≤ (s.length : Int)) :
    decodeContent val k = some (((s.map Sample.value).take k.toNat).map byteOf) ∧
    (((s.map Sample.value).take k.toNat).map byteOf).length = k.toNat := by
  constructor
  · unfold decodeContent getValues
    rw [hlast]
    show (sliceTo (s.map Sample.value) k).bind
        (fun floatBytes => some (floatBytes.map byteOf)) = _
    unfold sliceTo
    rw [if_pos ⟨h0, by rw [List.length_map]; exact hk⟩]
    rfl
  · rw [List.length_map, List.length_take, List.length_map]
    omega

/-- Claim C6 (amended) witness: a last series with three samples, values
[5, 300, 7], against `fileSizeBytes = 2` (more points than expected):
decoding is defined, keeps the first two values, and truncates 300 to the
byte 44. -/
theorem decodeContent_truncates_witness :
    ([[⟨5, 0⟩, ⟨300, 1000⟩, ⟨7, 2000⟩]] : Matrix).getLast? =
        some [⟨5, 0⟩, ⟨300, 1000⟩, ⟨7, 2000⟩] ∧
    decodeContent [[⟨5, 0⟩, ⟨300, 1000⟩, ⟨7, 2000⟩]] 2 =
      some ((([(⟨5, 0⟩ : Sample), ⟨300, 1000⟩, ⟨7, 2000⟩].map Sample.value).take
        ((2 : Int)).toNat).map byteOf) ∧
    decodeContent [[⟨5, 0⟩, ⟨300, 1000⟩, ⟨7, 2000⟩]] 2 = some [5, 44] := by
  have h := decodeContent_truncates [[⟨5, 0⟩, ⟨300, 1000⟩, ⟨7, 2000⟩]]
    [⟨5, 0⟩, ⟨300, 1000⟩, ⟨7, 2000⟩] 2 rfl (by decide) (by decide)
  refine ⟨rfl, h.1, ?_⟩
  rw [h.1]
  decide

/-- Claim C7 (confirmed).  `Set` propagates network-level errors from the
HTTP client unchanged; a 2xx status yields success (`nil` error); any
non-2xx status yields an error whose text contains both the response
status and the first line of the response body. -/
theorem set_response_handling (resp : HttpResponse) (e : String) :
    setHandleResponse (Except.error e) = some e ∧
    (200 ≤ resp.statusCode ∧ resp.statusCode ≤ 299 →
      setHandleResponse (Except.ok resp) = none) ∧
    (¬ (200 ≤ resp.statusCode ∧ resp.statusCode ≤ 299) →
      setHandleResponse (Except.ok resp) =
        some ("server returned HTTP status " ++ resp.status ++ ": " ++
          firstLine resp.body)) := by
  refine ⟨rfl, ?_, ?_⟩
  · intro h
    show (if resp.statusCode / 100 ≠ 2 then
        some ("server returned HTTP status " ++ resp.status ++ ": " ++ firstLine resp.body)
      else none) = none
    rw [if_neg]
    omega
  · intro h
    show (if resp.statusCode / 100 ≠ 2 then
        some ("server returned HTTP status " ++ resp.status ++ ": " ++ firstLine resp.body)
      else none) = some ("server returned HTTP status " ++ resp.status ++ ": " ++
        firstLine resp.body)
    rw [if_pos]
    omega

/-- Claim C7 witness: status 500 with body "out of memory" yields an error
containing both the status and the diagnostic line; a network error is
returned unchanged; a 204 response succeeds. -/
theorem set_response_handling_witness :
    setHandleResponse (Except.error "connection refused") = some "connection refused" ∧
    setHandleResponse
        (Except.ok ⟨500, "500 Internal Server Error", "out of memory\ndetails"⟩) =
      some ("server returned HTTP status " ++ "500 Internal Server Error" ++ ": " ++
        firstLine "out of memory\ndetails") ∧
    setHandleResponse (Except.ok ⟨204, "204 No Content", ""⟩) = none := by
  refine ⟨?_, ?_, ?_⟩
  · exact (set_response_handling ⟨500, "500 Internal Server Error", "out of memory\ndetails"⟩
      "connection refused").1
  · exact (set_response_handling ⟨500, "500 Internal Server Error", "out of memory\ndetails"⟩
      "connection refused").2.2 (by decide)
  · exact (set_response_handling ⟨204, "204 No Content", ""⟩ "x").2.1 (by decide)

/-- Claim C8 (confirmed).  The write-request builder is a pure function of
the key, the bytes read, and the injected "now" instant: in this embedding
it performs no I/O by construction (the reader is represented by the bytes
it yields), and two calls agree whenever those three inputs agree. -/
theorem build_deterministic (name1 name2 : String)
    (r1 r2 : Except String (List (Fin 256))) (now1 now2 : Int)
    (hname : name1 = name2) (hr : r1 = r2) (hnow : now1 = now2) :
    buildWriteRequest name1 r1 now1 = buildWriteRequest name2 r2 now2 := by
  rw [hname, hr, hnow]

/-- Claim C8 witness: two calls with the same key, bytes and instant
produce the same request. -/
theorem build_deterministic_witness :
    buildWriteRequest "greeting" (Except.ok [104, 105]) 2000000000 =
      buildWriteRequest "greeting" (Except.ok [104, 105]) 2000000000 :=
  build_deterministic "greeting" "greeting" (Except.ok [104, 105])
    (Except.ok [104, 105]) 2000000000 2000000000 rfl rfl rfl

/-- Claim C9 (confirmed).  For every key and buffer - the empty buffer
included - the built request holds exactly three series, in the fixed
order start series (`promkv_file_timestamp_seconds`), size series
(`promkv_file_size_bytes`), content series (`promkv_file_content`), each
labeled with `__name__` and `key=<key>`; the content series entry is
present even with zero samples, and the metadata list holds exactly three
descriptors, one per series in the same order, all gauges. -/
theorem request_shape (name : String) (B : List (Fin 256)) (now : Int) :
    ∃ req, buildWriteRequest name (Except.ok B) now = Except.ok req ∧
      req.timeseries.map TimeSeries.labels =
        [[⟨"__name__", "promkv_file_timestamp_seconds"⟩, ⟨"key", name⟩],
         [⟨"__name__", "promkv_file_size_bytes"⟩, ⟨"key", name⟩],
         [⟨"__name__", "promkv_file_content"⟩, ⟨"key", name⟩]] ∧
      req.timeseries.length = 3 ∧
      req.metadata.map MetricMetadata.metricFamilyName =
        ["promkv_file_timestamp_seconds", "promkv_file_size_bytes",
         "promkv_file_content"] ∧
      req.metadata.map MetricMetadata.type =
        [MetricType.gauge, MetricType.gauge, MetricType.gauge] :=
  ⟨_, rfl, rfl, rfl, rfl, rfl⟩

/-- Claim C10 (confirmed).  `buildWriteRequest` fails exactly when reading
the input fails: a read error is returned as-is (with no request - the Go
function returns `nil`), and for an in-memory source that yields its bytes
without error the builder always returns a request. -/
theorem build_error_iff_read_error (name e : String) (B : List (Fin 256)) (now : Int) :
    buildWriteRequest name (Except.error e) now = Except.error e ∧
    ∃ req, buildWriteRequest name (Except.ok B) now = Except.ok req :=
  ⟨rfl, _, rfl⟩

end Promkv
